import Mathlib

/-!
Shallow embedding of the Tap Sprint backend (src/task-3/backend/server.js).

The server keeps an in-memory map from game id to game state, plus a bounded
list of recently finished games used for a leaderboard.  JavaScript Map
iteration follows insertion order, so both maps are modelled as
insertion-ordered association lists; Map.set overwrites in place when the key
exists and appends otherwise, Map.delete removes the entry with the key.
Date.now() timestamps are modelled as natural numbers supplied as explicit
parameters.  Socket ids (connection handles) and generated player ids are
opaque strings supplied as parameters (generateId draws on Math.random, so
its output is an input of the model).  The timeoutHandle field only carries
the Node timer token and is not part of the observable state; the body of the
setTimeout callback is modelled as the timerFire operation.  Broadcasts
(io.to(...).emit) do not change server state and are omitted.
-/

namespace TapSprint

/-- TAP_WINDOW_MS from server.js line 8. -/
def TAP_WINDOW_MS : Nat := 15000

/-- MAX_LEADERBOARD_GAMES from server.js line 9. -/
def MAX_LEADERBOARD_GAMES : Nat := 50

/-- The status strings of a game: lobby, running or ended. -/
inductive Status where
  | lobby
  | running
  | ended
deriving DecidableEq, Repr

/-- One entry of a game's players map. -/
structure Player where
  playerId : String
  username : String
  socketId : String
  taps : Nat
deriving DecidableEq, Repr

/-- A game record as stored in the games map (timeoutHandle omitted). -/
structure Game where
  status : Status
  players : List Player
  startTime : Option Nat
  endTime : Option Nat
deriving DecidableEq, Repr

/-- An element of a finished game's scores array. -/
structure ScoreEntry where
  playerId : String
  username : String
  taps : Nat
deriving DecidableEq, Repr

/-- An element of the recentGames array. -/
structure RecentGame where
  gameId : String
  timestamp : Nat
  winner : Option ScoreEntry
  scores : List ScoreEntry
deriving DecidableEq, Repr

/-- The whole in-memory server state: the games map and recentGames. -/
structure ServerState where
  games : List (String × Game)
  recentGames : List RecentGame
deriving DecidableEq, Repr

/-- Map.get on the games map. -/
def lookupGame' : List (String × Game) → String → Option Game
  | [], _ => none
  | e :: es, gid => if e.1 = gid then some e.2 else lookupGame' es gid

/-- games.get(gameId). -/
def lookupGame (st : ServerState) (gid : String) : Option Game :=
  lookupGame' st.games gid

/-- Map.set on the games map: overwrite in place, else append. -/
def setGame' : List (String × Game) → String → Game → List (String × Game)
  | [], gid, g => [(gid, g)]
  | e :: es, gid, g => if e.1 = gid then (gid, g) :: es else e :: setGame' es gid g

/-- games.set(gameId, game). -/
def ServerState.withGame (st : ServerState) (gid : String) (g : Game) : ServerState :=
  { st with games := setGame' st.games gid g }

/-- createGameIfMissing (server.js lines 25-36): lazily create a lobby game. -/
def createGameIfMissing (st : ServerState) (gid : String) : ServerState × Game :=
  match lookupGame st gid with
  | some g => (st, g)
  | none =>
    let g : Game := { status := .lobby, players := [], startTime := none, endTime := none }
    (st.withGame gid g, g)

/-- game.players.get(playerId). -/
def findPlayer : List Player → String → Option Player
  | [], _ => none
  | p :: ps, pid => if p.playerId = pid then some p else findPlayer ps pid

/-- game.players.set(p.playerId, p): overwrite in place, else append. -/
def setPlayer : List Player → Player → List Player
  | [], p => [p]
  | q :: qs, p => if q.playerId = p.playerId then p :: qs else q :: setPlayer qs p

/-- The scan of the disconnect handler: first player whose socketId matches. -/
def findBySocket : List Player → String → Option Player
  | [], _ => none
  | p :: ps, sock => if p.socketId = sock then some p else findBySocket ps sock

/-- game.players.delete(pid): remove the entry with the key. -/
def deleteById : List Player → String → List Player
  | [], _ => []
  | p :: ps, pid => if p.playerId = pid then ps else p :: deleteById ps pid

/-- Acknowledgement of join_game. -/
inductive JoinRes where
  | ok (playerId gameId : String)
  | err (error : String)
deriving DecidableEq, Repr

/-- Acknowledgement of start_game. -/
inductive StartRes where
  | ok (gameId : String) (startTime durationMs : Nat)
  | err (error : String)
deriving DecidableEq, Repr

/-- join_game handler (server.js lines 103-139).  The handler first computes
String(payload.username || '').trim(); username here is that resulting
trimmed string, so the handler's !username test is the test against the
empty string.  fresh is the id produced by generateId (which draws on
Math.random and Date.now, so it is an input of the model). -/
def join_game (st : ServerState) (username gameId sockId fresh : String) :
    ServerState × JoinRes :=
  if username = "" then (st, .err "username_required")
  else
    let st₁ := (createGameIfMissing st gameId).1
    let game := (createGameIfMissing st gameId).2
    if game.status ≠ .lobby then (st₁, .err "game_already_started")
    else
      let p : Player := { playerId := fresh, username := username, socketId := sockId, taps := 0 }
      (st₁.withGame gameId { game with players := setPlayer game.players p }, .ok fresh gameId)

/-- start_game handler (server.js lines 142-198), state part; now is Date.now().
The setTimeout call only stores a timer token; its callback body is timerFire. -/
def start_game (st : ServerState) (gameId : String) (now : Nat) :
    ServerState × StartRes :=
  let st₁ := (createGameIfMissing st gameId).1
  let game := (createGameIfMissing st gameId).2
  if game.status = .running then (st₁, .err "already_running")
  else if game.players.length = 0 then (st₁, .err "no_players")
  else
    let game' : Game :=
      { game with
        players := game.players.map (fun p => { p with taps := 0 }),
        status := .running,
        startTime := some now,
        endTime := some (now + TAP_WINDOW_MS) }
    (st₁.withGame gameId game', .ok gameId now TAP_WINDOW_MS)

/-- tap handler (server.js lines 201-227); now is Date.now() at processing. -/
def tap (st : ServerState) (gameId playerId sockId : String) (now : Nat) : ServerState :=
  match lookupGame st gameId with
  | none => st
  | some game =>
    if game.status ≠ .running then st
    else
      match game.startTime, game.endTime with
      | some s, some e =>
        if now < s ∨ e < now then st
        else
          match findPlayer game.players playerId with
          | none => st
          | some p =>
            if p.socketId ≠ sockId then st
            else
              st.withGame gameId
                { game with players := setPlayer game.players { p with taps := p.taps + 1 } }
      | _, _ => st

/-!
The sort in computeResults is the JavaScript Array.prototype.sort with
comparator (a, b) => b.taps - a.taps: a stable sort that puts higher tap
counts first and keeps the original (join) order among equal tap counts.
Stable sorting by a comparator is modelled by insertion sort whose insert
keeps an already placed element y before the new element x exactly when the
comparator orders y strictly before x: any stable sort and this insertion
sort produce the same output list.
-/

/-- Stable descending insert for the computeResults comparator. -/
def insertScore (x : ScoreEntry) : List ScoreEntry → List ScoreEntry
  | [] => [x]
  | y :: ys => if x.taps < y.taps then y :: insertScore x ys else x :: y :: ys

/-- Stable sort by taps descending (ties keep join order). -/
def sortScores : List ScoreEntry → List ScoreEntry
  | [] => []
  | x :: xs => insertScore x (sortScores xs)

/-- computeResults (server.js lines 42-48): ranked scores and the winner
(scores[0] || null is the head of the sorted list, none when empty). -/
def computeResults (game : Game) : List ScoreEntry × Option ScoreEntry :=
  let scores :=
    sortScores (game.players.map (fun p => ⟨p.playerId, p.username, p.taps⟩))
  (scores, scores.head?)

/-- The recentGames manipulation of recordGameToLeaderboard (server.js lines
52-60): push, then shift the oldest entry off when over capacity. -/
def pushRecent (recents : List RecentGame) (entry : RecentGame) : List RecentGame :=
  if MAX_LEADERBOARD_GAMES < (recents ++ [entry]).length then (recents ++ [entry]).tail
  else recents ++ [entry]

/-- recordGameToLeaderboard (server.js lines 50-61); now is Date.now(). -/
def recordGameToLeaderboard (st : ServerState) (gid : String) (game : Game) (now : Nat) :
    ServerState :=
  let r := computeResults game
  let entry : RecentGame :=
    { gameId := gid, timestamp := now, winner := r.2, scores := r.1 }
  { st with recentGames := pushRecent st.recentGames entry }

/-- The body of the setTimeout callback armed by start_game (server.js lines
175-190): set status to ended, compute and broadcast results, record to the
leaderboard.  The callback closes over the game object, which is always
present in the games map (rooms are never deleted); now is Date.now() at the
moment the leaderboard entry is recorded. -/
def timerFire (st : ServerState) (gid : String) (now : Nat) : ServerState :=
  match lookupGame st gid with
  | none => st
  | some game =>
    let game' := { game with status := Status.ended }
    recordGameToLeaderboard (st.withGame gid game') gid game' now

/-- Per-game part of the disconnect handler (server.js lines 231-246): find
the first player whose socketId matches, then delete that player id. -/
def disconnectGame (sock : String) (g : Game) : Game :=
  match findBySocket g.players sock with
  | none => g
  | some p => { g with players := deleteById g.players p.playerId }

/-- disconnect handler (server.js lines 229-247): every game is scanned. -/
def disconnect (st : ServerState) (sock : String) : ServerState :=
  { st with games := st.games.map (fun e => (e.1, disconnectGame sock e.2)) }

/-- One flattened leaderboard row of buildLeaderboardTopN. -/
structure LBEntry where
  username : String
  taps : Nat
  gameId : String
  timestamp : Nat
deriving DecidableEq, Repr

/-- The flattening loop of buildLeaderboardTopN (server.js lines 65-70). -/
def flattenScores (recents : List RecentGame) : List LBEntry :=
  (recents.map (fun g =>
    g.scores.map (fun s =>
      { username := s.username, taps := s.taps, gameId := g.gameId,
        timestamp := g.timestamp }))).flatten

/-- Stable insert for the comparator (a, b) => b.taps - a.taps || a.timestamp -
b.timestamp: an element y stays before the new element x exactly when y has
strictly more taps, or equal taps and a strictly earlier timestamp. -/
def insertLB (x : LBEntry) : List LBEntry → List LBEntry
  | [] => [x]
  | y :: ys =>
    if x.taps < y.taps ∨ (y.taps = x.taps ∧ y.timestamp < x.timestamp) then
      y :: insertLB x ys
    else x :: y :: ys

/-- Stable sort by taps descending, then timestamp ascending. -/
def sortLB : List LBEntry → List LBEntry
  | [] => []
  | x :: xs => insertLB x (sortLB xs)

/-- buildLeaderboardTopN (server.js lines 63-73). -/
def buildLeaderboardTopN (recents : List RecentGame) (n : Nat) : List LBEntry :=
  (sortLB (flattenScores recents)).take n

/-- The inbound events the coordinator reacts to, each carrying the server
time and generated ids its handler reads. -/
inductive Event where
  | join (username gameId sockId fresh : String)
  | start (gameId : String) (now : Nat)
  | tap (gameId playerId sockId : String) (now : Nat)
  | timerFire (gameId : String) (now : Nat)
  | disconnect (sockId : String)

/-- One processing step of the server: dispatch an event to its handler. -/
def step (st : ServerState) : Event → ServerState
  | .join u g s f => (join_game st u g s f).1
  | .start g n => (start_game st g n).1
  | .tap g p s n => tap st g p s n
  | .timerFire g n => timerFire st g n
  | .disconnect s => disconnect st s

/-- The status of a room, when it exists. -/
def statusOf (st : ServerState) (gid : String) : Option Status :=
  (lookupGame st gid).map Game.status

/-- The roster of a room normalized to a list (empty when the room is missing). -/
def rosterOf (st : ServerState) (gid : String) : List Player :=
  ((lookupGame st gid).map Game.players).getD []

/-- The tap count of one player of one room, when both exist. -/
def playerTaps (st : ServerState) (gid pid : String) : Option Nat :=
  (lookupGame st gid).bind (fun g => (findPlayer g.players pid).map Player.taps)

/-- The full acceptance condition of the tap handler: the room exists, its
status is running, both window bounds are set and now lies between them
inclusively, the player is in the roster, and the sender's connection handle
equals the recorded one. -/
def tapAccepted (st : ServerState) (gid pid sockId : String) (now : Nat) : Prop :=
  ∃ g p s e, lookupGame st gid = some g ∧ g.status = Status.running ∧
    g.startTime = some s ∧ g.endTime = some e ∧ s ≤ now ∧ now ≤ e ∧
    findPlayer g.players pid = some p ∧ p.socketId = sockId

/-- The ordering the leaderboard comparator sorts by: strictly more taps
first, and among equal taps the earlier timestamp first. -/
def LBle (a b : LBEntry) : Prop :=
  b.taps < a.taps ∨ (a.taps = b.taps ∧ a.timestamp ≤ b.timestamp)

/-- A batch of join_game requests processed in order on one room: each
request carries the raw username, the connection handle, and the id
generateId produced for it; the result is the final state and the number of
accepted (acknowledged ok) joins. -/
def runJoins (st : ServerState) (gid : String) :
    List (String × String × String) → ServerState × Nat
  | [] => (st, 0)
  | r :: rest =>
    let res := join_game st r.1 gid r.2.1 r.2.2
    let next := runJoins res.1 gid rest
    (next.1, (match res.2 with | JoinRes.ok _ _ => 1 | JoinRes.err _ => 0) + next.2)

/-! Sample states used to instantiate the theorems at concrete inputs. -/

/-- A room "g" in running status whose roster has emptied out. -/
def stEmptyRunning : ServerState :=
  ⟨[("g", ⟨Status.running, [], some 1, some 15001⟩)], []⟩

/-- A room "g" in lobby status with an empty roster. -/
def stEmptyLobby : ServerState :=
  ⟨[("g", ⟨Status.lobby, [], none, none⟩)], []⟩

/-- A running room "g" with one player who has tapped twice. -/
def stRunOne : ServerState :=
  ⟨[("g", ⟨Status.running, [⟨"pA", "alice", "sA", 2⟩], some 100, some 15100⟩)], []⟩

/-- A room "g" with two roster entries sharing the connection handle s1. -/
def stDupSock : ServerState :=
  ⟨[("g", ⟨Status.lobby,
      [⟨"p1", "a", "s1", 0⟩, ⟨"p2", "b", "s1", 0⟩], none, none⟩)], []⟩

/-- A sample leaderboard record. -/
def rgSample : RecentGame := ⟨"g", 1, none, []⟩

/-! Basic lemmas about the association-list maps. -/

theorem lookupGame'_setGame'_self (games : List (String × Game)) (gid : String) (g : Game) :
    lookupGame' (setGame' games gid g) gid = some g := by
  induction games with
  | nil => simp [setGame', lookupGame']
  | cons e es ih =>
    by_cases h : e.1 = gid
    · simp [setGame', lookupGame', h]
    · simp [setGame', lookupGame', h, ih]

theorem lookupGame'_setGame'_ne (games : List (String × Game)) (gid gid' : String) (g : Game)
    (h : gid ≠ gid') :
    lookupGame' (setGame' games gid' g) gid = lookupGame' games gid := by
  have h' : ¬ gid' = gid := fun he => h he.symm
  induction games with
  | nil => simp [setGame', lookupGame', h']
  | cons e es ih =>
    by_cases he : e.1 = gid'
    · have he2 : ¬ e.1 = gid := by rw [he]; exact h'
      simp [setGame', lookupGame', he, he2, h']
    · by_cases he' : e.1 = gid <;> simp [setGame', lookupGame', he, he', ih, h]

theorem createGameIfMissing_of_some (st : ServerState) (gid : String) (g : Game)
    (hg : lookupGame st gid = some g) :
    createGameIfMissing st gid = (st, g) := by
  simp [createGameIfMissing, hg]

theorem createGameIfMissing_of_none (st : ServerState) (gid : String)
    (hg : lookupGame st gid = none) :
    createGameIfMissing st gid =
      (st.withGame gid ⟨Status.lobby, [], none, none⟩, ⟨Status.lobby, [], none, none⟩) := by
  simp [createGameIfMissing, hg]

theorem lookupGame_withGame_self (st : ServerState) (gid : String) (g : Game) :
    lookupGame (st.withGame gid g) gid = some g :=
  lookupGame'_setGame'_self st.games gid g

theorem lookupGame_withGame_ne (st : ServerState) (gid gid' : String) (g : Game)
    (h : gid ≠ gid') :
    lookupGame (st.withGame gid' g) gid = lookupGame st gid :=
  lookupGame'_setGame'_ne st.games gid gid' g h

theorem findPlayer_eq_id (ps : List Player) (pid : String) (p : Player)
    (h : findPlayer ps pid = some p) : p.playerId = pid := by
  induction ps with
  | nil => simp [findPlayer] at h
  | cons q qs ih =>
    by_cases hq : q.playerId = pid
    · simp [findPlayer, hq] at h
      rw [← h]
      exact hq
    · simp [findPlayer, hq] at h
      exact ih h

theorem findPlayer_setPlayer_self (ps : List Player) (p : Player) :
    findPlayer (setPlayer ps p) p.playerId = some p := by
  induction ps with
  | nil => simp [setPlayer, findPlayer]
  | cons q qs ih =>
    by_cases h : q.playerId = p.playerId
    · simp [setPlayer, findPlayer, h]
    · simp [setPlayer, findPlayer, h, ih]

/-- C2: claim: start on any room with an empty roster always fails with
no_players, in every status.  False: the handler tests for running status
first, so an empty running room fails with already_running instead. -/
theorem C2_counterexample :
    (start_game stEmptyRunning "g" 5).2 ≠ StartRes.err "no_players" ∧
    (start_game stEmptyRunning "g" 5).2 = StartRes.err "already_running" := by
  constructor
  · intro h
    exact absurd h (by decide)
  · decide

/-- C2 (amended): start on a room with an empty roster always fails and
leaves the whole state (hence the room's status) unchanged; the error is
already_running when the room is running and no_players otherwise. -/
theorem C2_start_empty_roster (st : ServerState) (gid : String) (now : Nat) (g : Game)
    (hg : lookupGame st gid = some g) (hempty : g.players = []) :
    (start_game st gid now).1 = st ∧
    (start_game st gid now).2 =
      (if g.status = Status.running then StartRes.err "already_running"
       else StartRes.err "no_players") := by
  have hcg := createGameIfMissing_of_some st gid g hg
  by_cases hr : g.status = Status.running
  · constructor <;> simp [start_game, hcg, hr]
  · constructor <;> simp [start_game, hcg, hr, hempty]

/-- C2 witness: the amended theorem applied to an empty lobby room. -/
theorem C2_witness :
    (start_game stEmptyLobby "g" 5).1 = stEmptyLobby ∧
    (start_game stEmptyLobby "g" 5).2 =
      (if (⟨Status.lobby, [], none, none⟩ : Game).status = Status.running
       then StartRes.err "already_running" else StartRes.err "no_players") :=
  C2_start_empty_roster stEmptyLobby "g" 5 ⟨Status.lobby, [], none, none⟩ (by decide) rfl

/-- C3: claim: a second endNow on an already-Ended room is a no-op, producing
and recording the Result Record only once.  False: the timer callback has no
status guard; a second invocation appends a second leaderboard record, so
two invocations leave two records and the second invocation changes state. -/
theorem C3_counterexample :
    (timerFire (timerFire stRunOne "g" 15200) "g" 15300).recentGames.length = 2 ∧
    timerFire (timerFire stRunOne "g" 15200) "g" 15300 ≠ timerFire stRunOne "g" 15200 := by
  constructor
  · decide
  · intro h
    have : ((timerFire (timerFire stRunOne "g" 15200) "g" 15300).recentGames.length : Nat)
        = (timerFire stRunOne "g" 15200).recentGames.length := by rw [h]
    exact absurd this (by decide)

/-- C3 (amended): the timer callback always sets the room's status to Ended,
but it is not idempotent: every invocation, including one on an
already-Ended room, produces a Result Record and appends it to the
leaderboard history (evicting under the capacity rule), so invoking it twice
records twice; only the timer discipline (one armed timer per room, re-arm
cancels) keeps it from firing twice per Running phase. -/
theorem C3_endNow_records_each_time (st : ServerState) (gid : String) (now : Nat) (g : Game)
    (hg : lookupGame st gid = some g) :
    statusOf (timerFire st gid now) gid = some Status.ended ∧
    (timerFire st gid now).recentGames.length =
      (if MAX_LEADERBOARD_GAMES < st.recentGames.length + 1
       then st.recentGames.length else st.recentGames.length + 1) := by
  unfold timerFire
  rw [hg]
  constructor
  · simp [statusOf, recordGameToLeaderboard, lookupGame, ServerState.withGame,
      lookupGame'_setGame'_self]
  · unfold recordGameToLeaderboard
    by_cases h : MAX_LEADERBOARD_GAMES < st.recentGames.length + 1 <;>
      simp [pushRecent, ServerState.withGame, h]

/-- C3 witness: the amended theorem applied to a concrete running room. -/
theorem C3_witness :
    statusOf (timerFire stRunOne "g" 15200) "g" = some Status.ended ∧
    (timerFire stRunOne "g" 15200).recentGames.length =
      (if MAX_LEADERBOARD_GAMES < stRunOne.recentGames.length + 1
       then stRunOne.recentGames.length else stRunOne.recentGames.length + 1) :=
  C3_endNow_records_each_time stRunOne "g" 15200
    ⟨Status.running, [⟨"pA", "alice", "sA", 2⟩], some 100, some 15100⟩ (by decide)

/-- C5: whenever start succeeds, the room's startTime and endTime are both
set, startTime < endTime, and endTime - startTime is exactly 15000 ms. -/
theorem C5_start_window (st : ServerState) (gid : String) (now : Nat)
    (gname : String) (s d : Nat)
    (hok : (start_game st gid now).2 = StartRes.ok gname s d) :
    ∃ game, lookupGame (start_game st gid now).1 gid = some game ∧
      ∃ ts te, game.startTime = some ts ∧ game.endTime = some te ∧
        ts < te ∧ te - ts = 15000 := by
  cases hlook : lookupGame st gid with
  | none =>
    rw [start_game, createGameIfMissing_of_none st gid hlook] at hok
    simp at hok
  | some g =>
    rw [start_game, createGameIfMissing_of_some st gid g hlook] at hok
    by_cases hr : g.status = Status.running
    · simp [hr] at hok
    · by_cases he : g.players.length = 0
      · simp [hr, he] at hok
      · refine ⟨⟨Status.running, g.players.map (fun p => ⟨p.playerId, p.username, p.socketId, 0⟩),
                 some now, some (now + TAP_WINDOW_MS)⟩,
            ?_, now, now + TAP_WINDOW_MS, rfl, rfl, ?_, ?_⟩
        · rw [start_game, createGameIfMissing_of_some st gid g hlook]
          simp [hr, he, lookupGame_withGame_self]
        · simp [TAP_WINDOW_MS]
        · simp [TAP_WINDOW_MS]

/-- C5 witness: start on a concrete one-player lobby room. -/
theorem C5_witness :
    ∃ game,
      lookupGame
        (start_game ⟨[("g", ⟨Status.lobby, [⟨"pA", "alice", "sA", 0⟩], none, none⟩)], []⟩
          "g" 100).1 "g" = some game ∧
      ∃ ts te, game.startTime = some ts ∧ game.endTime = some te ∧
        ts < te ∧ te - ts = 15000 :=
  C5_start_window ⟨[("g", ⟨Status.lobby, [⟨"pA", "alice", "sA", 0⟩], none, none⟩)], []⟩
    "g" 100 "g" 100 15000 (by decide)

/-! Lemmas about the stable sort of computeResults. -/

theorem insertScore_perm (x : ScoreEntry) (l : List ScoreEntry) :
    (insertScore x l).Perm (x :: l) := by
  induction l with
  | nil => simp [insertScore]
  | cons y ys ih =>
    by_cases h : x.taps < y.taps
    · simp only [insertScore, if_pos h]
      exact (ih.cons y).trans (List.Perm.swap x y ys)
    · simp [insertScore, if_neg h]

theorem sortScores_perm (l : List ScoreEntry) : (sortScores l).Perm l := by
  induction l with
  | nil => simp [sortScores]
  | cons x xs ih =>
    exact (insertScore_perm x (sortScores xs)).trans (ih.cons x)

theorem pairwise_insertScore (x : ScoreEntry) (l : List ScoreEntry)
    (h : l.Pairwise (fun a b => b.taps ≤ a.taps)) :
    (insertScore x l).Pairwise (fun a b => b.taps ≤ a.taps) := by
  induction l with
  | nil => simp [insertScore]
  | cons y ys ih =>
    rcases List.pairwise_cons.1 h with ⟨hy, hys⟩
    by_cases hc : x.taps < y.taps
    · simp only [insertScore, if_pos hc]
      refine List.pairwise_cons.2 ⟨?_, ih hys⟩
      intro z hz
      have hz' : z = x ∨ z ∈ ys := by
        have := (insertScore_perm x ys).mem_iff.1 hz
        simpa using this
      rcases hz' with rfl | hzys
      · omega
      · exact hy z hzys
    · simp only [insertScore, if_neg hc]
      refine List.pairwise_cons.2 ⟨?_, h⟩
      intro z hz
      rcases List.mem_cons.1 hz with rfl | hzys
      · omega
      · have := hy z hzys
        omega

theorem pairwise_sortScores (l : List ScoreEntry) :
    (sortScores l).Pairwise (fun a b => b.taps ≤ a.taps) := by
  induction l with
  | nil => simp [sortScores]
  | cons x xs ih => exact pairwise_insertScore x _ ih

theorem filter_insertScore (x : ScoreEntry) (l : List ScoreEntry) (k : Nat) :
    (insertScore x l).filter (fun s => s.taps == k) =
      (if x.taps = k then x :: l.filter (fun s => s.taps == k)
       else l.filter (fun s => s.taps == k)) := by
  induction l with
  | nil => by_cases hk : x.taps = k <;> simp [insertScore, hk]
  | cons y ys ih =>
    by_cases hc : x.taps < y.taps
    · simp only [insertScore, if_pos hc, List.filter_cons]
      by_cases hk : x.taps = k
      · have hyk : ¬ y.taps = k := by omega
        simp [hk, hyk, ih]
      · simp [hk, ih, List.filter_cons]
    · simp only [insertScore, if_neg hc]
      by_cases hk : x.taps = k <;> simp [hk, List.filter_cons]

theorem filter_sortScores (l : List ScoreEntry) (k : Nat) :
    (sortScores l).filter (fun s => s.taps == k) = l.filter (fun s => s.taps == k) := by
  induction l with
  | nil => rfl
  | cons x xs ih =>
    simp only [sortScores]
    rw [filter_insertScore]
    by_cases hk : x.taps = k <;> simp [hk, ih, List.filter_cons]

/-- C4: the ranked list of computeResults is sorted non-increasing by score;
entries of every fixed score appear in join (roster) order, so among equal
scores the earlier-joined player ranks first; the list is a permutation of
the roster's score snapshot; the winner is the head of the ranked list and
is none exactly when the roster is empty; and the result depends only on the
roster, so recomputing on an unchanged roster yields an identical ordering. -/
theorem C4_computeResults (g : Game) :
    (computeResults g).1.Pairwise (fun a b => b.taps ≤ a.taps) ∧
    (∀ k, (computeResults g).1.filter (fun s => s.taps == k) =
      (g.players.map (fun p => ⟨p.playerId, p.username, p.taps⟩)).filter
        (fun s => s.taps == k)) ∧
    (computeResults g).1.Perm
      (g.players.map (fun p => ⟨p.playerId, p.username, p.taps⟩)) ∧
    (computeResults g).2 = (computeResults g).1.head? ∧
    ((computeResults g).2 = none ↔ g.players = []) ∧
    (∀ g' : Game, g'.players = g.players → computeResults g' = computeResults g) := by
  refine ⟨pairwise_sortScores _, fun k => filter_sortScores _ k, sortScores_perm _,
    rfl, ?_, ?_⟩
  · unfold computeResults
    rw [List.head?_eq_none_iff]
    constructor
    · intro h
      have hlen := (sortScores_perm
        (g.players.map (fun p => ⟨p.playerId, p.username, p.taps⟩))).length_eq
      rw [h] at hlen
      simpa using (List.map_eq_nil_iff.1 (List.eq_nil_of_length_eq_zero hlen.symm))
    · intro h
      simp [h, sortScores]
  · intro g' hgg
    unfold computeResults
    rw [hgg]

/-- C4 witness: recomputing on a second game object with the same roster
(three players, scores 3, 5, 3) gives the identical result. -/
theorem C4_witness :
    computeResults ⟨Status.running,
        [⟨"p1", "a", "s1", 3⟩, ⟨"p2", "b", "s2", 5⟩, ⟨"p3", "c", "s3", 3⟩],
        none, none⟩ =
      computeResults ⟨Status.ended,
        [⟨"p1", "a", "s1", 3⟩, ⟨"p2", "b", "s2", 5⟩, ⟨"p3", "c", "s3", 3⟩],
        some 100, some 15100⟩ :=
  (C4_computeResults ⟨Status.ended,
      [⟨"p1", "a", "s1", 3⟩, ⟨"p2", "b", "s2", 5⟩, ⟨"p3", "c", "s3", 3⟩],
      some 100, some 15100⟩).2.2.2.2.2
    ⟨Status.running,
      [⟨"p1", "a", "s1", 3⟩, ⟨"p2", "b", "s2", 5⟩, ⟨"p3", "c", "s3", 3⟩],
      none, none⟩ rfl

/-! Lemmas about the stable sort of buildLeaderboardTopN. -/

theorem insertLB_perm (x : LBEntry) (l : List LBEntry) :
    (insertLB x l).Perm (x :: l) := by
  induction l with
  | nil => simp [insertLB]
  | cons y ys ih =>
    by_cases h : x.taps < y.taps ∨ (y.taps = x.taps ∧ y.timestamp < x.timestamp)
    · simp only [insertLB, if_pos h]
      exact (ih.cons y).trans (List.Perm.swap x y ys)
    · simp [insertLB, if_neg h]

theorem sortLB_perm (l : List LBEntry) : (sortLB l).Perm l := by
  induction l with
  | nil => simp [sortLB]
  | cons x xs ih =>
    exact (insertLB_perm x (sortLB xs)).trans (ih.cons x)

theorem pairwise_insertLB (x : LBEntry) (l : List LBEntry)
    (h : l.Pairwise LBle) : (insertLB x l).Pairwise LBle := by
  induction l with
  | nil => simp [insertLB]
  | cons y ys ih =>
    rcases List.pairwise_cons.1 h with ⟨hy, hys⟩
    by_cases hc : x.taps < y.taps ∨ (y.taps = x.taps ∧ y.timestamp < x.timestamp)
    · simp only [insertLB, if_pos hc]
      refine List.pairwise_cons.2 ⟨?_, ih hys⟩
      intro z hz
      have hz' : z = x ∨ z ∈ ys := by
        have := (insertLB_perm x ys).mem_iff.1 hz
        simpa using this
      rcases hz' with rfl | hzys
      · unfold LBle
        omega
      · exact hy z hzys
    · simp only [insertLB, if_neg hc]
      refine List.pairwise_cons.2 ⟨?_, h⟩
      intro z hz
      rcases List.mem_cons.1 hz with rfl | hzys
      · unfold LBle
        omega
      · have hyz := hy z hzys
        unfold LBle at hyz ⊢
        omega

theorem pairwise_sortLB (l : List LBEntry) : (sortLB l).Pairwise LBle := by
  induction l with
  | nil => simp [sortLB]
  | cons x xs ih => exact pairwise_insertLB x _ ih

/-- C9: for every retained history and every n, topN flattens all retained
score lists into one sequence, whose sorted version is a permutation of that
flattening, pairwise ordered with more taps first and ties broken by the
earlier recorded timestamp, and returns its first n entries (so the output
length is the minimum of n and the flattened length).  The computation is a
pure read: it builds a fresh list and leaves the stored records untouched. -/
theorem C9_topN (recents : List RecentGame) (n : Nat) :
    (sortLB (flattenScores recents)).Perm (flattenScores recents) ∧
    (sortLB (flattenScores recents)).Pairwise LBle ∧
    buildLeaderboardTopN recents n = (sortLB (flattenScores recents)).take n ∧
    (buildLeaderboardTopN recents n).length = min n (flattenScores recents).length := by
  refine ⟨sortLB_perm _, pairwise_sortLB _, rfl, ?_⟩
  unfold buildLeaderboardTopN
  rw [List.length_take, (sortLB_perm (flattenScores recents)).length_eq]

/-- C1: a score-tick processed at server time now increments the target
player's score by exactly one iff the room exists, is running, now lies in
the inclusive window, the player is in the roster and the connection handle
matches; in every other case the whole state is unchanged (the handler sends
no acknowledgement at all, so no error is ever surfaced to the sender). -/
theorem C1_tap_score (st : ServerState) (gid pid sockId : String) (now : Nat) :
    (tapAccepted st gid pid sockId now →
      ∃ t, playerTaps st gid pid = some t ∧
        playerTaps (tap st gid pid sockId now) gid pid = some (t + 1)) ∧
    (¬ tapAccepted st gid pid sockId now → tap st gid pid sockId now = st) := by
  constructor
  · rintro ⟨g, p, s, e, hg, hst, hs, he, h1, h2, hp, hsock⟩
    have hpid := findPlayer_eq_id g.players pid p hp
    subst hpid
    subst hsock
    have hwin : ¬ (now < s ∨ e < now) := by omega
    have hfind := findPlayer_setPlayer_self g.players
      { playerId := p.playerId, username := p.username, socketId := p.socketId,
        taps := p.taps + 1 }
    refine ⟨p.taps, by simp [playerTaps, hg, hp], ?_⟩
    unfold tap
    rw [hg]
    simp [hst, hs, he, hwin, hp, playerTaps, lookupGame_withGame_self, hfind]
  · intro hn
    unfold tap
    cases hg : lookupGame st gid with
    | none => rfl
    | some g =>
      by_cases hst : g.status = Status.running
      · cases hs : g.startTime with
        | none => simp [hst, hs]
        | some s =>
          cases he : g.endTime with
          | none => simp [hst, hs, he]
          | some e =>
            by_cases hwin : now < s ∨ e < now
            · simp [hst, hs, he, hwin]
            · cases hp : findPlayer g.players pid with
              | none => simp [hst, hs, he, hwin, hp]
              | some p =>
                by_cases hsock : p.socketId = sockId
                · exact absurd
                    ⟨g, p, s, e, hg, hst, hs, he, by omega, by omega, hp, hsock⟩ hn
                · simp [hst, hs, he, hwin, hp, hsock]
      · simp [hst]

/-- C1 witness: an in-window tap on a live roster entry increments its count
from 2 to 3; a tap naming an unknown room leaves the state unchanged. -/
theorem C1_witness :
    (∃ t, playerTaps stRunOne "g" "pA" = some t ∧
       playerTaps (tap stRunOne "g" "pA" "sA" 200) "g" "pA" = some (t + 1)) ∧
    tap stRunOne "nope" "pA" "sA" 200 = stRunOne :=
  ⟨(C1_tap_score stRunOne "g" "pA" "sA" 200).1
      ⟨⟨Status.running, [⟨"pA", "alice", "sA", 2⟩], some 100, some 15100⟩,
       ⟨"pA", "alice", "sA", 2⟩, 100, 15100,
       by decide, rfl, rfl, rfl, by decide, by decide, by decide, rfl⟩,
   (C1_tap_score stRunOne "nope" "pA" "sA" 200).2 (by
      rintro ⟨g, p, s, e, hg, -, -, -, -, -, -, -⟩
      have hn : lookupGame stRunOne "nope" = none := by decide
      rw [hn] at hg
      exact Option.noConfusion hg)⟩

/-- C8: over any sequence of record operations the retained history never
exceeds the capacity of 50 entries; an append below capacity just appends,
and an append that would exceed capacity evicts the oldest (head) entry, in
FIFO order. -/
theorem C8_leaderboard_capacity :
    (∀ (entries recents : List RecentGame),
        recents.length ≤ MAX_LEADERBOARD_GAMES →
        (entries.foldl pushRecent recents).length ≤ MAX_LEADERBOARD_GAMES) ∧
    (∀ (recents : List RecentGame) (e : RecentGame),
        recents.length < MAX_LEADERBOARD_GAMES →
        pushRecent recents e = recents ++ [e]) ∧
    (∀ (recents : List RecentGame) (e : RecentGame),
        recents.length = MAX_LEADERBOARD_GAMES →
        pushRecent recents e = recents.tail ++ [e]) := by
  have hstep : ∀ (recents : List RecentGame) (e : RecentGame),
      recents.length ≤ MAX_LEADERBOARD_GAMES →
      (pushRecent recents e).length ≤ MAX_LEADERBOARD_GAMES := by
    intro recents e h
    unfold pushRecent MAX_LEADERBOARD_GAMES at *
    by_cases hc : 50 < (recents ++ [e]).length
    · rw [if_pos hc]
      simp only [List.length_tail, List.length_append, List.length_cons,
        List.length_nil] at *
      omega
    · rw [if_neg hc]
      omega
  refine ⟨?_, ?_, ?_⟩
  · intro entries
    induction entries with
    | nil => intro recents h; exact h
    | cons e es ih =>
      intro recents h
      exact ih (pushRecent recents e) (hstep recents e h)
  · intro recents e h
    unfold pushRecent MAX_LEADERBOARD_GAMES at *
    have hnc : ¬ 50 < (recents ++ [e]).length := by
      simp only [List.length_append, List.length_cons, List.length_nil]
      omega
    rw [if_neg hnc]
  · intro recents e h
    unfold pushRecent MAX_LEADERBOARD_GAMES at *
    have hc : 50 < (recents ++ [e]).length := by
      simp only [List.length_append, List.length_cons, List.length_nil]
      omega
    rw [if_pos hc]
    cases recents with
    | nil => simp at h
    | cons a l => simp

/-- C8 witness: the capacity bound and both append behaviors at concrete
histories of length 1, 0 and 50. -/
theorem C8_witness :
    ([rgSample].foldl pushRecent []).length ≤ MAX_LEADERBOARD_GAMES ∧
    pushRecent [] rgSample = [] ++ [rgSample] ∧
    pushRecent (List.replicate 50 rgSample) rgSample =
      (List.replicate 50 rgSample).tail ++ [rgSample] :=
  ⟨C8_leaderboard_capacity.1 [rgSample] [] (by decide),
   C8_leaderboard_capacity.2.1 [] rgSample (by decide),
   C8_leaderboard_capacity.2.2 (List.replicate 50 rgSample) rgSample (by simp [MAX_LEADERBOARD_GAMES])⟩

/-! Lemmas for join sequences. -/

theorem setPlayer_not_mem (ps : List Player) (p : Player)
    (h : ¬ p.playerId ∈ ps.map Player.playerId) :
    setPlayer ps p = ps ++ [p] := by
  induction ps with
  | nil => simp [setPlayer]
  | cons q qs ih =>
    simp only [List.map_cons, List.mem_cons] at h
    push_neg at h
    have hq : ¬ q.playerId = p.playerId := fun he => h.1 he.symm
    simp [setPlayer, hq, ih h.2]

theorem join_game_lobby_accepted (st : ServerState) (gid : String) (g : Game)
    (u sock f : String) (hg : lookupGame st gid = some g)
    (hlob : g.status = Status.lobby) (hu : ¬ u = "") :
    join_game st u gid sock f =
      (st.withGame gid
        { g with players := setPlayer g.players ⟨f, u, sock, 0⟩ },
       JoinRes.ok f gid) := by
  simp [join_game, hu, createGameIfMissing_of_some st gid g hg, hlob]

theorem runJoins_lobby (gid : String) (reqs : List (String × String × String)) :
    ∀ (st : ServerState) (g : Game),
      lookupGame st gid = some g → g.status = Status.lobby →
      ((reqs.map (fun r => r.2.2)) ++ g.players.map Player.playerId).Nodup →
      ∃ g', lookupGame (runJoins st gid reqs).1 gid = some g' ∧
        g'.status = Status.lobby ∧
        g'.players.length = g.players.length + (runJoins st gid reqs).2 ∧
        (g'.players.map Player.playerId).Nodup ∧
        (∀ p ∈ g'.players, p ∈ g.players ∨ p.taps = 0) := by
  induction reqs with
  | nil =>
    intro st g hg hlob hnd
    exact ⟨g, hg, hlob, by simp [runJoins], (List.nodup_append.1 hnd).2.1,
      fun p hp => Or.inl hp⟩
  | cons r rest ih =>
    intro st g hg hlob hnd
    rw [List.map_cons, List.cons_append] at hnd
    by_cases hu : r.1 = ""
    · have hjoin : join_game st r.1 gid r.2.1 r.2.2 =
          (st, JoinRes.err "username_required") := by
        simp [join_game, hu]
      obtain ⟨g', h1, h2, h3, h4, h5⟩ := ih st g hg hlob (List.nodup_cons.1 hnd).2
      refine ⟨g', ?_, h2, ?_, h4, h5⟩
      · simpa [runJoins, hjoin] using h1
      · simp only [runJoins, hjoin]
        simpa using h3
    · have hfresh : ¬ r.2.2 ∈ g.players.map Player.playerId := by
        have hnotin := (List.nodup_cons.1 hnd).1
        simp only [List.mem_append] at hnotin
        exact fun hm => hnotin (Or.inr hm)
      have hjoin := join_game_lobby_accepted st gid g r.1 r.2.1 r.2.2 hg hlob hu
      rw [setPlayer_not_mem g.players ⟨r.2.2, r.1, r.2.1, 0⟩ hfresh] at hjoin
      have hg1 : lookupGame
          (st.withGame gid { g with players := g.players ++ [⟨r.2.2, r.1, r.2.1, 0⟩] }) gid =
          some { g with players := g.players ++ [⟨r.2.2, r.1, r.2.1, 0⟩] } :=
        lookupGame_withGame_self st gid _
      have hnd1 : ((rest.map (fun r => r.2.2)) ++
          ({ g with players := g.players ++ [⟨r.2.2, r.1, r.2.1, 0⟩] } : Game).players.map
            Player.playerId).Nodup := by
        simp only [List.map_append, List.map_cons, List.map_nil]
        have hassoc : (rest.map (fun r => r.2.2)) ++
            (g.players.map Player.playerId ++ [r.2.2]) =
            ((rest.map (fun r => r.2.2)) ++ g.players.map Player.playerId) ++ [r.2.2] :=
          (List.append_assoc _ _ _).symm
        rw [hassoc]
        exact (List.perm_append_singleton r.2.2 _).symm.nodup hnd
      obtain ⟨g', h1, h2, h3, h4, h5⟩ := ih _ _ hg1 hlob hnd1
      refine ⟨g', ?_, h2, ?_, h4, ?_⟩
      · simpa [runJoins, hjoin] using h1
      · simp only [runJoins, hjoin]
        simp only [List.length_append, List.length_cons, List.length_nil] at h3
        omega
      · intro p hp
        rcases h5 p hp with hmem | hz
        · rcases List.mem_append.1 hmem with hmem | hmem
          · exact Or.inl hmem
          · have hpw : p = ⟨r.2.2, r.1, r.2.1, 0⟩ := by simpa using hmem
            right
            rw [hpw]
        · exact Or.inr hz

/-- C6: on a lobby room with an empty roster, any sequence of joins whose
generated ids are pairwise distinct leaves the room with roster size equal
to the number of accepted joins, all player ids distinct within the room,
and every inserted Participant at score zero; and a join with a nonempty
username on a room that is not in Lobby fails with game_already_started and
changes nothing at all. -/
theorem C6_join_roster :
    (∀ (gid : String) (reqs : List (String × String × String))
        (st : ServerState) (g : Game),
      lookupGame st gid = some g → g.status = Status.lobby → g.players = [] →
      (reqs.map (fun r => r.2.2)).Nodup →
      ∃ g', lookupGame (runJoins st gid reqs).1 gid = some g' ∧
        g'.players.length = (runJoins st gid reqs).2 ∧
        (g'.players.map Player.playerId).Nodup ∧
        (∀ p ∈ g'.players, p.taps = 0)) ∧
    (∀ (st : ServerState) (gid : String) (g : Game) (u sock f : String),
      lookupGame st gid = some g → g.status ≠ Status.lobby → ¬ u = "" →
      join_game st u gid sock f = (st, JoinRes.err "game_already_started")) := by
  constructor
  · intro gid reqs st g hg hlob hemp hnd
    obtain ⟨g', h1, h2, h3, h4, h5⟩ := runJoins_lobby gid reqs st g hg hlob
      (by simp [hemp, hnd])
    refine ⟨g', h1, by simpa [hemp] using h3, h4, ?_⟩
    intro p hp
    rcases h5 p hp with hmem | hz
    · rw [hemp] at hmem
      exact absurd hmem (List.not_mem_nil p)
    · exact hz
  · intro st gid g u sock f hg hnl hu
    simp [join_game, hu, createGameIfMissing_of_some st gid g hg, hnl]

/-- C6 witness: two joins with distinct generated ids on an empty lobby room,
and a rejected join on an empty running room. -/
theorem C6_witness :
    (∃ g', lookupGame (runJoins stEmptyLobby "g"
          [("alice", "sA", "pA"), ("bob", "sB", "pB")]).1 "g" = some g' ∧
        g'.players.length = (runJoins stEmptyLobby "g"
          [("alice", "sA", "pA"), ("bob", "sB", "pB")]).2 ∧
        (g'.players.map Player.playerId).Nodup ∧
        (∀ p ∈ g'.players, p.taps = 0)) ∧
    join_game stEmptyRunning "carol" "g" "sC" "pC" =
      (stEmptyRunning, JoinRes.err "game_already_started") :=
  ⟨C6_join_roster.1 "g" [("alice", "sA", "pA"), ("bob", "sB", "pB")]
      stEmptyLobby ⟨Status.lobby, [], none, none⟩ (by decide) rfl rfl (by decide),
   C6_join_roster.2 stEmptyRunning "g" ⟨Status.running, [], some 1, some 15001⟩
      "carol" "sC" "pC" (by decide) (by decide) (by decide)⟩

/-! Lemmas about disconnect. -/

theorem lookupGame'_map (games : List (String × Game)) (f : Game → Game) (gid : String) :
    lookupGame' (games.map (fun e => (e.1, f e.2))) gid = (lookupGame' games gid).map f := by
  induction games with
  | nil => simp [lookupGame']
  | cons e es ih =>
    by_cases h : e.1 = gid <;> simp [lookupGame', h, ih]

theorem lookupGame_disconnect (st : ServerState) (sock gid : String) :
    lookupGame (disconnect st sock) gid =
      (lookupGame st gid).map (disconnectGame sock) := by
  unfold disconnect lookupGame
  exact lookupGame'_map st.games (disconnectGame sock) gid

theorem disconnectGame_status (sock : String) (g : Game) :
    (disconnectGame sock g).status = g.status := by
  unfold disconnectGame
  cases findBySocket g.players sock <;> rfl

theorem findBySocket_none (ps : List Player) (sock : String)
    (h : ∀ p ∈ ps, ¬ p.socketId = sock) : findBySocket ps sock = none := by
  induction ps with
  | nil => rfl
  | cons q qs ih =>
    simp [findBySocket, h q (List.mem_cons_self q qs),
      ih (fun p hp => h p (List.mem_cons_of_mem q hp))]

theorem disconnectGame_no_match (sock : String) (g : Game)
    (h : ∀ p ∈ g.players, ¬ p.socketId = sock) : disconnectGame sock g = g := by
  unfold disconnectGame
  rw [findBySocket_none g.players sock h]

theorem findBySocket_first (l₁ : List Player) (p : Player) (l₂ : List Player) (sock : String)
    (hp : p.socketId = sock) (hl₁ : ∀ q ∈ l₁, ¬ q.socketId = sock) :
    findBySocket (l₁ ++ p :: l₂) sock = some p := by
  induction l₁ with
  | nil => simp [findBySocket, hp]
  | cons q qs ih =>
    simp [findBySocket, hl₁ q (List.mem_cons_self q qs),
      ih (fun a ha => hl₁ a (List.mem_cons_of_mem q ha))]

theorem deleteById_first (l₁ : List Player) (p : Player) (l₂ : List Player)
    (h : ∀ q ∈ l₁, ¬ q.playerId = p.playerId) :
    deleteById (l₁ ++ p :: l₂) p.playerId = l₁ ++ l₂ := by
  induction l₁ with
  | nil => simp [deleteById]
  | cons q qs ih =>
    simp [deleteById, h q (List.mem_cons_self q qs),
      ih (fun a ha => h a (List.mem_cons_of_mem q ha))]

theorem length_deleteById_le (ps : List Player) (pid : String) :
    (deleteById ps pid).length ≤ ps.length := by
  induction ps with
  | nil => simp [deleteById]
  | cons a as ih =>
    by_cases h : a.playerId = pid
    · simp [deleteById, h]
    · simp only [deleteById, h, if_neg, ite_false, List.length_cons]
      omega

theorem disconnectGame_length_le (sock : String) (g : Game) :
    (disconnectGame sock g).players.length ≤ g.players.length := by
  unfold disconnectGame
  cases findBySocket g.players sock with
  | none => exact Nat.le_refl _
  | some p => simpa using length_deleteById_le g.players p.playerId

/-- C7: claim: a connection handle maps to at most one roster entry per room
and a disconnect removes every matching entry.  False on both counts: the
join handler never checks whether the socket already has a roster entry, so
joining twice over one connection yields two entries with the same handle
(here both with handle s1), and the disconnect handler stops scanning after
the first match, so one matching entry survives the disconnect. -/
theorem C7_counterexample :
    ((rosterOf ((join_game (join_game ⟨[], []⟩ "a" "g" "s1" "p1").1
        "b" "g" "s1" "p2").1) "g").countP (fun p => p.socketId == "s1") = 2) ∧
    ((rosterOf (disconnect ((join_game (join_game ⟨[], []⟩ "a" "g" "s1" "p1").1
        "b" "g" "s1" "p2").1) "s1") "g").countP (fun p => p.socketId == "s1") = 1) :=
  ⟨by decide, by decide⟩

/-- C7 (amended): a connection handle can map to several roster entries of a
room (join does not deduplicate handles).  A disconnect, in each room and
regardless of status, removes at most one roster entry: the earliest-joined
entry whose recorded handle matches (none when no entry matches), and never
changes the room's status.  Stated for rooms whose player ids are distinct,
which the real Map keys guarantee. -/
theorem C7_disconnect (st : ServerState) (sock gid : String) (g : Game)
    (hg : lookupGame st gid = some g)
    (hnd : (g.players.map Player.playerId).Nodup) :
    ∃ g', lookupGame (disconnect st sock) gid = some g' ∧
      g'.status = g.status ∧
      ((∀ p ∈ g.players, ¬ p.socketId = sock) → g' = g) ∧
      (∀ (l₁ : List Player) (p : Player) (l₂ : List Player),
        g.players = l₁ ++ p :: l₂ → p.socketId = sock →
        (∀ q ∈ l₁, ¬ q.socketId = sock) → g'.players = l₁ ++ l₂) := by
  refine ⟨disconnectGame sock g, ?_, disconnectGame_status sock g, ?_, ?_⟩
  · rw [lookupGame_disconnect, hg]
    rfl
  · intro h
    exact disconnectGame_no_match sock g h
  · intro l₁ p l₂ hsplit hpsock hl₁
    have hids : ∀ q ∈ l₁, ¬ q.playerId = p.playerId := by
      have hnd' := hnd
      rw [hsplit, List.map_append, List.map_cons] at hnd'
      have hdisj := (List.nodup_append.1 hnd').2.2
      intro q hq heq
      exact hdisj (List.mem_map_of_mem Player.playerId hq)
        (heq ▸ List.mem_cons_self _ _)
    unfold disconnectGame
    rw [hsplit, findBySocket_first l₁ p l₂ sock hpsock hl₁]
    simpa using deleteById_first l₁ p l₂ hids

/-- C7 witness: the amended theorem on a one-player running room whose only
entry matches the disconnecting handle. -/
theorem C7_witness :
    ∃ g', lookupGame (disconnect stRunOne "sA") "g" = some g' ∧
      g'.status = Status.running ∧
      ((∀ p ∈ ([⟨"pA", "alice", "sA", 2⟩] : List Player), ¬ p.socketId = "sA") →
        g' = ⟨Status.running, [⟨"pA", "alice", "sA", 2⟩], some 100, some 15100⟩) ∧
      (∀ (l₁ : List Player) (p : Player) (l₂ : List Player),
        ([⟨"pA", "alice", "sA", 2⟩] : List Player) = l₁ ++ p :: l₂ →
        p.socketId = "sA" → (∀ q ∈ l₁, ¬ q.socketId = "sA") →
        g'.players = l₁ ++ l₂) :=
  C7_disconnect stRunOne "sA" "g"
    ⟨Status.running, [⟨"pA", "alice", "sA", 2⟩], some 100, some 15100⟩
    (by decide) (by decide)

/-! Lemmas for the per-event invariant of C10. -/

theorem join_game_fst_not_lobby (st : ServerState) (gid : String) (g : Game)
    (u sock f : String) (hg : lookupGame st gid = some g)
    (hnl : g.status ≠ Status.lobby) :
    (join_game st u gid sock f).1 = st ∧
    (∀ pid gname, (join_game st u gid sock f).2 ≠ JoinRes.ok pid gname) := by
  by_cases hu : u = ""
  · simp [join_game, hu]
  · simp [join_game, hu, createGameIfMissing_of_some st gid g hg, hnl]

theorem join_game_lookup_ne (st : ServerState) (u gid' sock f gid : String)
    (h : gid ≠ gid') :
    lookupGame (join_game st u gid' sock f).1 gid = lookupGame st gid := by
  by_cases hu : u = ""
  · simp [join_game, hu]
  · cases hlk : lookupGame st gid' with
    | none =>
      simp [join_game, hu, createGameIfMissing_of_none st gid' hlk,
        lookupGame_withGame_ne, h]
    | some gg =>
      by_cases hsl : gg.status = Status.lobby
      · simp [join_game, hu, createGameIfMissing_of_some st gid' gg hlk, hsl,
          lookupGame_withGame_ne, h]
      · simp [join_game, hu, createGameIfMissing_of_some st gid' gg hlk, hsl]

theorem start_game_lookup_ne (st : ServerState) (gid' : String) (now : Nat) (gid : String)
    (h : gid ≠ gid') :
    lookupGame (start_game st gid' now).1 gid = lookupGame st gid := by
  cases hlk : lookupGame st gid' with
  | none =>
    simp [start_game, createGameIfMissing_of_none st gid' hlk,
      lookupGame_withGame_ne, h]
  | some gg =>
    by_cases hr : gg.status = Status.running
    · simp [start_game, createGameIfMissing_of_some st gid' gg hlk, hr]
    · by_cases hz : gg.players.length = 0
      · simp [start_game, createGameIfMissing_of_some st gid' gg hlk, hr, hz]
      · simp [start_game, createGameIfMissing_of_some st gid' gg hlk, hr, hz,
          lookupGame_withGame_ne, h]

theorem start_game_same (st : ServerState) (gid : String) (now : Nat) (g : Game)
    (hg : lookupGame st gid = some g) :
    ∃ g', lookupGame (start_game st gid now).1 gid = some g' ∧
      (g'.status = g.status ∨ g'.status = Status.running) ∧
      g'.players.length = g.players.length := by
  have hcg := createGameIfMissing_of_some st gid g hg
  by_cases hr : g.status = Status.running
  · exact ⟨g, by simp [start_game, hcg, hr, hg], Or.inl rfl, rfl⟩
  · by_cases hz : g.players.length = 0
    · exact ⟨g, by simp [start_game, hcg, hr, hz, hg], Or.inl rfl, rfl⟩
    · refine ⟨⟨Status.running, g.players.map (fun p => ⟨p.playerId, p.username, p.socketId, 0⟩),
          some now, some (now + TAP_WINDOW_MS)⟩, ?_, Or.inr rfl, ?_⟩
      · simp [start_game, hcg, hr, hz, lookupGame_withGame_self]
      · simp

theorem tap_cases (st : ServerState) (gid' pid sock : String) (now : Nat) :
    tap st gid' pid sock now = st ∨
    ∃ g p, lookupGame st gid' = some g ∧ findPlayer g.players pid = some p ∧
      tap st gid' pid sock now =
        st.withGame gid'
          { g with players := setPlayer g.players { p with taps := p.taps + 1 } } := by
  cases hg : lookupGame st gid' with
  | none => exact Or.inl (by simp [tap, hg])
  | some game =>
    by_cases hst : game.status = Status.running
    · cases hs : game.startTime with
      | none => exact Or.inl (by simp [tap, hg, hst, hs])
      | some s =>
        cases he : game.endTime with
        | none => exact Or.inl (by simp [tap, hg, hst, hs, he])
        | some e =>
          by_cases hw : now < s ∨ e < now
          · exact Or.inl (by simp [tap, hg, hst, hs, he, hw])
          · cases hp : findPlayer game.players pid with
            | none => exact Or.inl (by simp [tap, hg, hst, hs, he, hw, hp])
            | some p =>
              by_cases hsk : p.socketId = sock
              · refine Or.inr ⟨game, p, rfl, hp, ?_⟩
                simp [tap, hg, hst, hs, he, hw, hp, hsk]
              · exact Or.inl (by simp [tap, hg, hst, hs, he, hw, hp, hsk])
    · exact Or.inl (by simp [tap, hg, hst])

theorem length_setPlayer_of_found (ps : List Player) (pid : String) (p q : Player)
    (hp : findPlayer ps pid = some p) (hq : q.playerId = pid) :
    (setPlayer ps q).length = ps.length := by
  induction ps with
  | nil => simp [findPlayer] at hp
  | cons a as ih =>
    by_cases ha : a.playerId = pid
    · have haq : a.playerId = q.playerId := by rw [ha, hq]
      simp [setPlayer, haq]
    · have ha2 : ¬ a.playerId = q.playerId := by rw [hq]; exact ha
      have hp' : findPlayer as pid = some p := by
        simpa [findPlayer, ha] using hp
      simp [setPlayer, ha2, ih hp']

theorem tap_same (st : ServerState) (gid pid sock : String) (now : Nat) (g : Game)
    (hg : lookupGame st gid = some g) :
    ∃ g', lookupGame (tap st gid pid sock now) gid = some g' ∧
      g'.status = g.status ∧ g'.players.length = g.players.length := by
  rcases tap_cases st gid pid sock now with heq | ⟨gg, p, hgg, hp, heq⟩
  · exact ⟨g, by rw [heq, hg], rfl, rfl⟩
  · obtain rfl : g = gg := by
      rw [hgg] at hg
      exact (Option.some.inj hg).symm
    refine ⟨{ g with players := setPlayer g.players { p with taps := p.taps + 1 } },
      ?_, rfl, ?_⟩
    · rw [heq]
      exact lookupGame_withGame_self st gid _
    · exact length_setPlayer_of_found g.players pid p { p with taps := p.taps + 1 } hp
        (findPlayer_eq_id g.players pid p hp)

theorem tap_lookup_ne (st : ServerState) (gid' pid sock : String) (now : Nat) (gid : String)
    (h : gid ≠ gid') :
    lookupGame (tap st gid' pid sock now) gid = lookupGame st gid := by
  rcases tap_cases st gid' pid sock now with heq | ⟨gg, p, _, _, heq⟩
  · rw [heq]
  · rw [heq, lookupGame_withGame_ne _ _ _ _ h]

theorem timerFire_same (st : ServerState) (gid : String) (now : Nat) (g : Game)
    (hg : lookupGame st gid = some g) :
    lookupGame (timerFire st gid now) gid = some { g with status := Status.ended } := by
  unfold timerFire
  rw [hg]
  simp [recordGameToLeaderboard, lookupGame, ServerState.withGame, lookupGame'_setGame'_self]

theorem timerFire_lookup_ne (st : ServerState) (gid' : String) (now : Nat) (gid : String)
    (h : gid ≠ gid') :
    lookupGame (timerFire st gid' now) gid = lookupGame st gid := by
  unfold timerFire
  cases hlk : lookupGame st gid' with
  | none => rfl
  | some gg =>
    simp only [recordGameToLeaderboard]
    exact lookupGame_withGame_ne _ _ _ _ h

/-- C10: once a room's status is not Lobby, no event of the server brings it
back to Lobby: after any step the room still exists with a status other than
Lobby, its roster size never grows (it shrinks only on a disconnect, every
non-disconnect event preserves it exactly), and any join aimed at that room
leaves the whole state unchanged and is never acknowledged ok. -/
theorem C10_no_return_to_lobby (st : ServerState) (gid : String) (g : Game)
    (hg : lookupGame st gid = some g) (hnl : g.status ≠ Status.lobby) :
    (∀ e : Event, ∃ g', lookupGame (step st e) gid = some g' ∧
      g'.status ≠ Status.lobby ∧
      g'.players.length ≤ g.players.length ∧
      ((∀ sock, e ≠ Event.disconnect sock) →
        g'.players.length = g.players.length)) ∧
    (∀ u sock f, (join_game st u gid sock f).1 = st ∧
      (∀ pid gname, (join_game st u gid sock f).2 ≠ JoinRes.ok pid gname)) := by
  constructor
  · intro e
    cases e with
    | join u gid' sock f =>
      by_cases hgid : gid = gid'
      · subst hgid
        have hj := (join_game_fst_not_lobby st gid g u sock f hg hnl).1
        exact ⟨g, by simpa [step, hj] using hg, hnl, Nat.le_refl _, fun _ => rfl⟩
      · refine ⟨g, ?_, hnl, Nat.le_refl _, fun _ => rfl⟩
        simpa [step, join_game_lookup_ne st u gid' sock f gid hgid] using hg
    | start gid' now =>
      by_cases hgid : gid = gid'
      · subst hgid
        obtain ⟨g', h1, h2, h3⟩ := start_game_same st gid now g hg
        refine ⟨g', h1, ?_, Nat.le_of_eq h3, fun _ => h3⟩
        rcases h2 with h2 | h2
        · rw [h2]; exact hnl
        · rw [h2]; exact fun hc => Status.noConfusion hc
      · refine ⟨g, ?_, hnl, Nat.le_refl _, fun _ => rfl⟩
        simpa [step, start_game_lookup_ne st gid' now gid hgid] using hg
    | tap gid' pid sock now =>
      by_cases hgid : gid = gid'
      · subst hgid
        obtain ⟨g', h1, h2, h3⟩ := tap_same st gid pid sock now g hg
        exact ⟨g', h1, by rw [h2]; exact hnl, Nat.le_of_eq h3, fun _ => h3⟩
      · refine ⟨g, ?_, hnl, Nat.le_refl _, fun _ => rfl⟩
        simpa [step, tap_lookup_ne st gid' pid sock now gid hgid] using hg
    | timerFire gid' now =>
      by_cases hgid : gid = gid'
      · subst hgid
        refine ⟨{ g with status := Status.ended }, timerFire_same st gid now g hg,
          fun hc => Status.noConfusion hc, Nat.le_refl _, fun _ => rfl⟩
      · refine ⟨g, ?_, hnl, Nat.le_refl _, fun _ => rfl⟩
        simpa [step, timerFire_lookup_ne st gid' now gid hgid] using hg
    | disconnect sock =>
      refine ⟨disconnectGame sock g, ?_, ?_, disconnectGame_length_le sock g, ?_⟩
      · rw [step, lookupGame_disconnect, hg]
        rfl
      · rw [disconnectGame_status]
        exact hnl
      · intro hne
        exact absurd rfl (hne sock)
  · intro u sock f
    exact join_game_fst_not_lobby st gid g u sock f hg hnl

/-- C10 witness: the invariant applied to a concrete running room, reading
off the join event for that room. -/
theorem C10_witness :
    (∀ e : Event, ∃ g', lookupGame (step stRunOne e) "g" = some g' ∧
      g'.status ≠ Status.lobby ∧
      g'.players.length ≤ 1 ∧
      ((∀ sock, e ≠ Event.disconnect sock) → g'.players.length = 1)) ∧
    (∀ u sock f, (join_game stRunOne u "g" sock f).1 = stRunOne ∧
      (∀ pid gname, (join_game stRunOne u "g" sock f).2 ≠ JoinRes.ok pid gname)) :=
  C10_no_return_to_lobby stRunOne "g"
    ⟨Status.running, [⟨"pA", "alice", "sA", 2⟩], some 100, some 15100⟩
    (by decide) (by decide)

end TapSprint
